import Mathlib

/-!
Shallow embedding of the dco2 DCO check engine (src/dco2/src/dco/check/mod.rs),
its event processing layer (src/dco2/src/dco/event/mod.rs) and the check run
reporting boundary (src/dco2/src/github/client.rs), together with proofs about
the claims of the specification.

Rust strings are modelled as lists of characters (`Str`). The only byte-level
operation the claims depend on, `String::truncate`, is modelled through the
UTF-8 size of each character. The external `EmailAddress::is_valid` predicate
from the `email_address` crate is a parameter of the embedding (`email_is_valid`):
every theorem below holds for an arbitrary such predicate.
-/

set_option maxRecDepth 100000

namespace DCO2

/-- Rust `String`, modelled as a list of characters. -/
abbrev Str := List Char

/-- ASCII lower-case folding on character codes: models the case folding used
by `str::to_lowercase` and by the `(?i)` regex flag, restricted to the ASCII
range in which all the patterns of the source live. -/
def lowerNat (c : Char) : Nat :=
  if 65 ≤ c.toNat ∧ c.toNat ≤ 90 then c.toNat + 32 else c.toNat

/-- Case-insensitive equality of two characters (models `(?i)`). -/
def ciChar (a b : Char) : Bool := lowerNat a == lowerNat b

/-- Case-insensitive equality of two strings: models
`a.to_lowercase() == b.to_lowercase()` from the source. -/
def ciStrEq (a b : Str) : Bool := a.map lowerNat == b.map lowerNat

/-- User information (src/dco2/src/github/client.rs, struct `User`). -/
structure User where
  name : Str
  email : Str
  is_bot : Bool
  login : Option Str
deriving DecidableEq, Repr

/-- `User::matches`: the user matches the provided optional user when both
names and both emails are equal case-insensitively. -/
def User.matches (u : User) (other : Option User) : Bool :=
  match other with
  | some v => ciStrEq u.name v.name && ciStrEq u.email v.email
  | none => false

/-- Commit information (src/dco2/src/github/client.rs, struct `Commit`). -/
structure Commit where
  author : Option User
  committer : Option User
  html_url : Str
  is_merge : Bool
  message : Str
  sha : Str
  verified : Option Bool
deriving DecidableEq, Repr

/-- Default value `DEFAULT_INDIVIDUAL_REMEDIATION_COMMITS_ALLOWED`. -/
def DEFAULT_INDIVIDUAL_REMEDIATION_COMMITS_ALLOWED : Bool := false

/-- Default value `DEFAULT_THIRD_PARTY_REMEDIATION_COMMITS_ALLOWED`. -/
def DEFAULT_THIRD_PARTY_REMEDIATION_COMMITS_ALLOWED : Bool := false

/-- Default value `DEFAULT_MEMBERS_SIGNOFF_REQUIRED`. -/
def DEFAULT_MEMBERS_SIGNOFF_REQUIRED : Bool := true

/-- `allow_remediation_commits` section of the repository configuration. -/
structure ConfigAllowRemediationCommits where
  individual : Option Bool
  third_party : Option Bool
deriving DecidableEq, Repr

/-- `require` section of the repository configuration. -/
structure ConfigRequire where
  members : Option Bool
deriving DecidableEq, Repr

/-- Repository configuration (src/dco2/src/github/client.rs, struct `Config`). -/
structure Config where
  allow_remediation_commits : Option ConfigAllowRemediationCommits
  require : Option ConfigRequire
deriving DecidableEq, Repr

/-- The `Default` implementation of `Config`. -/
def defaultConfig : Config :=
  { allow_remediation_commits :=
      some { individual := some DEFAULT_INDIVIDUAL_REMEDIATION_COMMITS_ALLOWED
             third_party := some DEFAULT_THIRD_PARTY_REMEDIATION_COMMITS_ALLOWED }
    require := some { members := some DEFAULT_MEMBERS_SIGNOFF_REQUIRED } }

/-- `Config::individual_remediation_commits_are_allowed`. -/
def Config.individual_remediation_commits_are_allowed (c : Config) : Bool :=
  match c.allow_remediation_commits with
  | some allow_remediation_commits =>
    allow_remediation_commits.individual.getD DEFAULT_INDIVIDUAL_REMEDIATION_COMMITS_ALLOWED
  | none => DEFAULT_INDIVIDUAL_REMEDIATION_COMMITS_ALLOWED

/-- `Config::third_party_remediation_commits_are_allowed`. -/
def Config.third_party_remediation_commits_are_allowed (c : Config) : Bool :=
  match c.allow_remediation_commits with
  | some allow_remediation_commits =>
    allow_remediation_commits.third_party.getD DEFAULT_THIRD_PARTY_REMEDIATION_COMMITS_ALLOWED
  | none => DEFAULT_THIRD_PARTY_REMEDIATION_COMMITS_ALLOWED

/-- `Config::members_signoff_is_required`. -/
def Config.members_signoff_is_required (c : Config) : Bool :=
  match c.require with
  | some require => require.members.getD DEFAULT_MEMBERS_SIGNOFF_REQUIRED
  | none => DEFAULT_MEMBERS_SIGNOFF_REQUIRED

/-- Check input (src/dco2/src/dco/check/mod.rs, struct `CheckInput`). -/
structure CheckInput where
  commits : List Commit
  config : Config
  head_ref : Str
  members : List Str
deriving DecidableEq, Repr

/-- Errors that may occur on a given commit during the check. -/
inductive CommitError where
  | InvalidAuthorEmail
  | InvalidCommitterEmail
  | SignOffMismatch
  | SignOffNotFound
deriving DecidableEq, Repr

/-- Reasons why the check of a commit succeeded. -/
inductive CommitSuccessReason where
  | FromBot
  | FromMember
  | IsMerge
  | ValidSignOff
  | ValidSignOffInRemediationCommit
deriving DecidableEq, Repr

/-- Commit check output (struct `CommitCheckOutput`). -/
structure CommitCheckOutput where
  commit : Commit
  errors : List CommitError
  success_reason : Option CommitSuccessReason
deriving DecidableEq, Repr

/-- Check output (struct `CheckOutput`). -/
structure CheckOutput where
  commits : List CommitCheckOutput
  config : Config
  head_ref : Str
  num_commits_with_errors : Nat
  only_last_commit_contains_errors : Bool
deriving DecidableEq, Repr

/-- `should_skip_commit`: merge commits are skipped first, then commits whose
author is a bot, then verified commits of trusted members when the
configuration does not require members to sign off. -/
def should_skip_commit (check_input : CheckInput) (commit : Commit) :
    Bool × Option CommitSuccessReason :=
  if commit.is_merge then
    (true, some CommitSuccessReason.IsMerge)
  else if Option.any (fun author => author.is_bot) commit.author then
    (true, some CommitSuccessReason.FromBot)
  else if !check_input.config.members_signoff_is_required
      && commit.verified.getD false
      && Option.any (fun author_username => check_input.members.contains author_username)
           (commit.author.bind User.login) then
    (true, some CommitSuccessReason.FromMember)
  else
    (false, none)

/-- `validate_emails`: the committer email is validated first, the author email
is validated only when it differs from the committer email; the committer
error always precedes the author error. The syntactic email validity check of
the `email_address` crate is the parameter `email_is_valid`. -/
def validate_emails (email_is_valid : Str → Bool) (commit : Commit) :
    Except (List CommitError) Unit :=
  let committer_email : Option Str := commit.committer.map User.email
  let committer_errors : List CommitError :=
    match committer_email with
    | some ce => if email_is_valid ce then [] else [CommitError.InvalidCommitterEmail]
    | none => []
  let author_errors : List CommitError :=
    match commit.author.map User.email with
    | some ae =>
      if some ae ≠ committer_email ∧ email_is_valid ae = false then
        [CommitError.InvalidAuthorEmail]
      else []
    | none => []
  let errors := committer_errors ++ author_errors
  if errors.isEmpty then Except.ok () else Except.error errors

/-- Sign-off details (struct `SignOff`). -/
structure SignOff where
  name : Str
  email : Str
deriving DecidableEq, Repr

/-- `SignOff::matches_user`. -/
def SignOff.matches_user (s : SignOff) (user : Option User) : Bool :=
  match user with
  | some u => ciStrEq s.name u.name && ciStrEq s.email u.email
  | none => false

/-- Case-insensitive prefix test on character lists: does `sep` occur at the
start of `s`, up to ASCII case folding? -/
def isPrefixOfCI : Str → Str → Bool
  | [], _ => true
  | _ :: _, [] => false
  | a :: rest₁, b :: rest₂ => ciChar a b && isPrefixOfCI rest₁ rest₂

/-- Does `sep` occur (case-insensitively) anywhere inside `s`? -/
def containsCI (sep : Str) : Str → Bool
  | [] => isPrefixOfCI sep []
  | c :: rest => isPrefixOfCI sep (c :: rest) || containsCI sep rest

/-- One backtracking attempt of a greedy `(.*)` capture followed by the literal
`sep`: split `s` at position `i`, require `sep` (case-insensitively) there, and
run the continuation `k` on the remainder; the part before `i` is the capture,
returned verbatim. -/
def tryAt {β : Type} (sep : Str) (k : Str → Option β) (s : Str) (i : Nat) :
    Option (Str × β) :=
  if isPrefixOfCI sep (s.drop i) then
    match k (s.drop (i + sep.length)) with
    | some b => some (s.take i, b)
    | none => none
  else none

/-- Try the split positions from `i` down to `0`, preferring the rightmost one:
the backtracking order of a greedy `(.*)` capture in the Rust regexes. -/
def goDown {β : Type} (sep : Str) (k : Str → Option β) (s : Str) : Nat → Option (Str × β)
  | 0 => tryAt sep k s 0
  | i + 1 => (tryAt sep k s (i + 1)) <|> goDown sep k s i

/-- Greedy split of `s` at the rightmost (case-insensitive) occurrence of the
literal `sep` whose remainder is accepted by the continuation `k`. -/
def greedySplit {β : Type} (sep : Str) (k : Str → Option β) (s : Str) :
    Option (Str × β) :=
  goDown sep k s s.length

/-- The character class `\s` of the Rust regex crate (Unicode whitespace). -/
def isRegexWs (c : Char) : Bool :=
  c.toNat == 32 || c.toNat == 9 || c.toNat == 10 || c.toNat == 13 ||
  c.toNat == 11 || c.toNat == 12 || c.toNat == 133 || c.toNat == 160 ||
  c.toNat == 0x1680 || (decide (0x2000 ≤ c.toNat) && decide (c.toNat ≤ 0x200A)) ||
  c.toNat == 0x2028 || c.toNat == 0x2029 || c.toNat == 0x202F ||
  c.toNat == 0x205F || c.toNat == 0x3000

/-- Split a commit message into its lines (the regions in which the multiline
anchors of the `(?m)` regexes delimit matches). -/
def splitLines : Str → List Str
  | [] => [[]]
  | c :: rest =>
    if c = '\n' then [] :: splitLines rest
    else
      match splitLines rest with
      | [] => [[c]]
      | line :: lines => (c :: line) :: lines

/-- The sign-off line literal of the regex `SIGN_OFF`, lower-cased. -/
def signOffLead : Str := "signed-off-by: ".data

/-- Match one line of a commit message against the sign-off regex
`(?mi)^Signed-off-by: (.*) <(.*)>\s*$`. Both captures are greedy and taken
verbatim (no trimming); the literal parts are matched case-insensitively;
trailing whitespace after the closing bracket is tolerated. -/
def parseSignOffLine (line : Str) : Option SignOff :=
  if isPrefixOfCI signOffLead line then
    match greedySplit " <".data
        (fun t =>
          Option.map Prod.fst
            (greedySplit ">".data
              (fun tail => if tail.all isRegexWs then some () else none) t))
        (line.drop signOffLead.length) with
    | some (name, email) => some { name := name, email := email }
    | none => none
  else none

/-- `get_signoffs`: all sign-offs found in the commit message, one per matching
line, in message order, without deduplication. -/
def get_signoffs (commit : Commit) : List SignOff :=
  (splitLines commit.message).filterMap parseSignOffLine

/-- `signoffs_match`: does any sign-off match the author or the committer? -/
def signoffs_match (signoffs : List SignOff) (commit : Commit) : Bool :=
  signoffs.any (fun signoff =>
    signoff.matches_user commit.author || signoff.matches_user commit.committer)

/-- Remediation details (struct `Remediation`). -/
structure Remediation where
  declarant : User
  target_sha : Str
deriving DecidableEq, Repr

/-- `Remediation::new`: when a representative is provided it must match the
author or the committer, otherwise the declarant must; the declarant is always
the one recorded in the remediation. -/
def Remediation.new (declarant_name declarant_email : Str)
    (representative_name representative_email : Option Str)
    (target_sha : Str) (commit : Commit) : Except Str Remediation :=
  let declarant : User :=
    { name := declarant_name, email := declarant_email, is_bot := false, login := none }
  let representative : Option User :=
    match representative_name, representative_email with
    | some name, some email => some { name := name, email := email, is_bot := false, login := none }
    | _, _ => none
  match representative with
  | some representative =>
    if !representative.matches commit.author && !representative.matches commit.committer then
      Except.error "representative must match the author or committer".data
    else
      Except.ok { declarant := declarant, target_sha := target_sha }
  | none =>
    if !declarant.matches commit.author && !declarant.matches commit.committer then
      Except.error "declarant must match the author or committer".data
    else
      Except.ok { declarant := declarant, target_sha := target_sha }

/-- `Remediation::matches_commit`: the target sha must be the commit sha and
the declarant must match the author or the committer. -/
def Remediation.matches_commit (r : Remediation) (commit : Commit) : Bool :=
  if r.target_sha ≠ commit.sha then false
  else r.declarant.matches commit.author || r.declarant.matches commit.committer

/-- The literal opening the individual remediation regex, lower-cased. -/
def individualLead : Str := "i, ".data

/-- The literal between the declarant email and the target sha of the
remediation regexes, lower-cased. -/
def herebyLead : Str := ">, hereby add my signed-off-by to this commit: ".data

/-- The literal opening the third-party remediation regex, lower-cased. -/
def onBehalfLead : Str := "on behalf of ".data

/-- The literal between the declarant email and the representative name in the
third-party remediation regex, lower-cased. -/
def thirdPartyMidLead : Str := ">, i, ".data

/-- Match one line against the individual remediation regex
`(?mi)^I, (.*) <(.*)>, hereby add my Signed-off-by to this commit: (.*)\s*$`,
returning declarant name, declarant email and target sha. -/
def parseIndividualRemediationLine (line : Str) : Option (Str × Str × Str) :=
  if isPrefixOfCI individualLead line then
    greedySplit " <".data
      (fun t => greedySplit herebyLead (fun sha => some sha) t)
      (line.drop individualLead.length)
  else none

/-- Match one line against the third-party remediation regex
`(?mi)^On behalf of (.*) <(.*)>, I, (.*) <(.*)>, hereby add my Signed-off-by to
this commit: (.*)\s*$`, returning declarant name and email, representative name
and email, and target sha. -/
def parseThirdPartyRemediationLine (line : Str) :
    Option (Str × Str × Str × Str × Str) :=
  if isPrefixOfCI onBehalfLead line then
    greedySplit " <".data
      (fun t₁ => greedySplit thirdPartyMidLead
        (fun t₂ => greedySplit " <".data
          (fun t₃ => greedySplit herebyLead (fun sha => some sha) t₃) t₂) t₁)
      (line.drop onBehalfLead.length)
  else none

/-- The individual remediations collected from one commit: one per matching
line of its message, kept only when `Remediation::new` accepts them. -/
def collect_individual_remediations (commit : Commit) : List Remediation :=
  ((splitLines commit.message).filterMap parseIndividualRemediationLine).filterMap
    (fun capture =>
      match Remediation.new capture.1 capture.2.1 none none capture.2.2 commit with
      | Except.ok r => some r
      | Except.error _ => none)

/-- The third-party remediations collected from one commit: one per matching
line of its message, kept only when `Remediation::new` accepts them. -/
def collect_third_party_remediations (commit : Commit) : List Remediation :=
  ((splitLines commit.message).filterMap parseThirdPartyRemediationLine).filterMap
    (fun capture =>
      match Remediation.new capture.1 capture.2.1 (some capture.2.2.1)
          (some capture.2.2.2.1) capture.2.2.2.2 commit with
      | Except.ok r => some r
      | Except.error _ => none)

/-- `get_remediations`: nothing is collected unless individual remediation
commits are allowed; third-party remediations are additionally collected only
when they are allowed too. -/
def get_remediations (config : Config) (commits : List Commit) : List Remediation :=
  if !config.individual_remediation_commits_are_allowed then []
  else
    (commits.map (fun commit =>
      collect_individual_remediations commit ++
        (if config.third_party_remediation_commits_are_allowed then
          collect_third_party_remediations commit
        else []))).flatten

/-- `remediations_match`: does any collected remediation match the commit? -/
def remediations_match (remediations : List Remediation) (commit : Commit) : Bool :=
  remediations.any (fun remediation => remediation.matches_commit commit)

/-- Steps 2 to 4 of the per-commit evaluation in `check`: validate the emails,
extract the sign-offs (appending `SignOffNotFound` when there are none), and
try to match a sign-off against the author or committer. -/
def check_commit_pre (email_is_valid : Str → Bool) (commit : Commit) :
    CommitCheckOutput :=
  let validation := validate_emails email_is_valid commit
  let emails_are_valid := validation.isOk
  let email_errors : List CommitError :=
    match validation with
    | Except.ok _ => []
    | Except.error errors => errors
  let signoffs := get_signoffs commit
  let not_found_errors : List CommitError :=
    if signoffs.isEmpty then [CommitError.SignOffNotFound] else []
  let (mismatch_errors, success_reason) :=
    if emails_are_valid && !signoffs.isEmpty then
      if signoffs_match signoffs commit then
        (([] : List CommitError), some CommitSuccessReason.ValidSignOff)
      else
        ([CommitError.SignOffMismatch], none)
    else (([] : List CommitError), none)
  { commit := commit
    errors := email_errors ++ not_found_errors ++ mismatch_errors
    success_reason := success_reason }

/-- The body of the per-commit loop of `check`: skipped commits only record
their skip reason; otherwise steps 2 to 4 run and, when no success reason was
set and a collected remediation matches, the accumulated errors are cleared and
the success reason becomes `ValidSignOffInRemediationCommit`. -/
def check_commit (input : CheckInput) (email_is_valid : Str → Bool)
    (remediations : List Remediation) (commit : Commit) : CommitCheckOutput :=
  if (should_skip_commit input commit).1 then
    { commit := commit, errors := [], success_reason := (should_skip_commit input commit).2 }
  else
    let pre := check_commit_pre email_is_valid commit
    if pre.success_reason.isNone && remediations_match remediations commit then
      { pre with errors := [], success_reason := some CommitSuccessReason.ValidSignOffInRemediationCommit }
    else pre

/-- `check`: collect the remediations from all commits, evaluate every commit
in input order, and derive the aggregate counters. -/
def check (email_is_valid : Str → Bool) (input : CheckInput) : CheckOutput :=
  let remediations := get_remediations input.config input.commits
  let commits := input.commits.map (check_commit input email_is_valid remediations)
  let num_commits_with_errors := (commits.filter (fun c => !c.errors.isEmpty)).length
  { commits := commits
    config := input.config
    head_ref := input.head_ref
    num_commits_with_errors := num_commits_with_errors
    only_last_commit_contains_errors :=
      num_commits_with_errors == 1
        && Option.any (fun c => !c.errors.isEmpty) commits.getLast? }

/-- The UTF-8 byte length of a string (Rust `String::len`). -/
def utf8Len (s : Str) : Nat := (s.map Char.utf8Size).sum

/-- Helper of `rustTruncate`: walk the characters, consuming `n` bytes; fails
when `n` lands strictly inside the encoding of a character. -/
def truncGo : Str → Nat → Option Str
  | _, 0 => some []
  | [], _ + 1 => some []
  | c :: rest, n + 1 =>
    if Char.utf8Size c ≤ n + 1 then
      Option.map (fun t => c :: t) (truncGo rest (n + 1 - Char.utf8Size c))
    else none

/-- Rust `String::truncate(n)`: a no-op when `n` is at least the byte length,
the prefix of byte length `n` when `n` lies on a character boundary, and a
panic (modelled as `none`) otherwise. -/
def rustTruncate (s : Str) (n : Nat) : Option Str :=
  if utf8Len s ≤ n then some s else truncGo s n

/-- Check run action (src/dco2/src/github/client.rs, struct `CheckRunAction`). -/
structure CheckRunAction where
  label : Str
  description : Str
  identifier : Str
deriving DecidableEq, Repr

/-- Check run conclusion. -/
inductive CheckRunConclusion where
  | Success
  | ActionRequired
deriving DecidableEq, Repr

/-- Check run status. -/
inductive CheckRunStatus where
  | Completed
deriving DecidableEq, Repr

/-- Check run information (struct `CheckRun`). The two timestamps are opaque
clock readings, modelled as natural numbers. -/
structure CheckRun where
  actions : List CheckRunAction
  completed_at : Nat
  conclusion : CheckRunConclusion
  head_sha : Str
  name : Str
  started_at : Nat
  status : CheckRunStatus
  summary : Str
deriving DecidableEq, Repr

/-- Input used to create a new check run (struct `NewCheckRunInput`). -/
structure NewCheckRunInput where
  actions : List CheckRunAction
  completed_at : Nat
  conclusion : CheckRunConclusion
  head_sha : Str
  name : Str
  started_at : Nat
  status : CheckRunStatus
  summary : Str
deriving DecidableEq, Repr

/-- `MAX_OUTPUT_SUMMARY_LENGTH`. -/
def MAX_OUTPUT_SUMMARY_LENGTH : Nat := 65535

/-- `MAX_ACTION_LABEL_LENGTH`. -/
def MAX_ACTION_LABEL_LENGTH : Nat := 20

/-- `MAX_ACTION_DESCRIPTION_LENGTH`. -/
def MAX_ACTION_DESCRIPTION_LENGTH : Nat := 40

/-- `MAX_ACTION_IDENTIFIER_LENGTH`. -/
def MAX_ACTION_IDENTIFIER_LENGTH : Nat := 20

/-- The body of the action loop of `CheckRun::new`: truncate the label, the
description and the identifier of one action to their maximum lengths. -/
def truncate_action (action : CheckRunAction) : Option CheckRunAction :=
  match rustTruncate action.label MAX_ACTION_LABEL_LENGTH with
  | none => none
  | some label =>
    match rustTruncate action.description MAX_ACTION_DESCRIPTION_LENGTH with
    | none => none
    | some description =>
      match rustTruncate action.identifier MAX_ACTION_IDENTIFIER_LENGTH with
      | none => none
      | some identifier =>
        some { label := label, description := description, identifier := identifier }

/-- `CheckRun::new`: build a check run from the input, truncating the summary
and each action field to the maximum byte length allowed by GitHub. The
truncation uses `String::truncate`, whose panic on a byte index that is not a
character boundary is modelled as `none`. -/
def CheckRun.new (input : NewCheckRunInput) : Option CheckRun :=
  match rustTruncate input.summary MAX_OUTPUT_SUMMARY_LENGTH with
  | none => none
  | some summary =>
    match input.actions.mapM truncate_action with
    | none => none
    | some actions =>
      some { actions := actions
             completed_at := input.completed_at
             conclusion := input.conclusion
             head_sha := input.head_sha
             name := input.name
             started_at := input.started_at
             status := input.status
             summary := summary }

/-- GitHub application installation information. -/
structure Installation where
  id : Int
deriving DecidableEq, Repr

/-- Repository owner information. -/
structure RepositoryOwner where
  login : Str
deriving DecidableEq, Repr

/-- Repository information. -/
structure Repository where
  name : Str
  owner : RepositoryOwner
deriving DecidableEq, Repr

/-- GitHub organization information. -/
structure Organization where
  login : Str
deriving DecidableEq, Repr

/-- Check run event action. -/
inductive CheckRunEventAction where
  | RequestedAction
  | Rerequested
  | Other
deriving DecidableEq, Repr

/-- Check run details of a check run event. -/
structure CheckRunEventCheckRun where
  head_sha : Str
deriving DecidableEq, Repr

/-- Requested action information. -/
structure RequestedAction where
  identifier : Str
deriving DecidableEq, Repr

/-- Check run event payload. -/
structure CheckRunEvent where
  action : CheckRunEventAction
  check_run : CheckRunEventCheckRun
  installation : Installation
  repository : Repository
  requested_action : Option RequestedAction
deriving DecidableEq, Repr

/-- Merge group event action. -/
inductive MergeGroupEventAction where
  | ChecksRequested
  | Other
deriving DecidableEq, Repr

/-- Merge group head commit information. -/
structure MergeGroupHeadCommit where
  id : Str
deriving DecidableEq, Repr

/-- Merge group details of a merge group event. -/
structure MergeGroupEventMergeGroup where
  head_commit : MergeGroupHeadCommit
deriving DecidableEq, Repr

/-- Merge group event payload. -/
structure MergeGroupEvent where
  action : MergeGroupEventAction
  installation : Installation
  merge_group : MergeGroupEventMergeGroup
  repository : Repository
deriving DecidableEq, Repr

/-- Pull request event action. -/
inductive PullRequestEventAction where
  | Opened
  | Synchronize
  | Other
deriving DecidableEq, Repr

/-- Pull request base information. -/
structure PullRequestBase where
  ref_ : Str
  sha : Str
deriving DecidableEq, Repr

/-- Pull request head information. -/
structure PullRequestHead where
  ref_ : Str
  sha : Str
deriving DecidableEq, Repr

/-- Pull request information. -/
structure PullRequest where
  base : PullRequestBase
  head : PullRequestHead
  html_url : Str
deriving DecidableEq, Repr

/-- Pull request event payload. -/
structure PullRequestEvent where
  action : PullRequestEventAction
  installation : Installation
  organization : Option Organization
  pull_request : PullRequest
  repository : Repository
deriving DecidableEq, Repr

/-- Webhook event. -/
inductive Event where
  | CheckRun (event : CheckRunEvent)
  | MergeGroup (event : MergeGroupEvent)
  | PullRequest (event : PullRequestEvent)

/-- The pure data behind the GitHub client calls made while processing one
event: the commits returned by `compare_commits`, the configuration returned
by `get_config`, and the organization membership predicate. -/
structure GHData where
  commits : List Commit
  config : Option Config
  is_org_member : Str → Str → Bool

/-- `CHECK_NAME`. -/
def CHECK_NAME : Str := "DCO".data

/-- `MERGE_GROUP_CHECKS_REQUESTED_SUMMARY`. -/
def MERGE_GROUP_CHECKS_REQUESTED_SUMMARY : Str :=
  "Check result set to passed for the merge group".data

/-- `OVERRIDE_ACTION_IDENTIFIER`. -/
def OVERRIDE_ACTION_IDENTIFIER : Str := "override".data

/-- `OVERRIDE_ACTION_LABEL`. -/
def OVERRIDE_ACTION_LABEL : Str := "Set DCO to pass".data

/-- `OVERRIDE_ACTION_DESCRIPTION`. -/
def OVERRIDE_ACTION_DESCRIPTION : Str := "Manually set DCO check result to passed".data

/-- `OVERRIDE_ACTION_SUMMARY`. -/
def OVERRIDE_ACTION_SUMMARY : Str := "Check result was manually set to passed".data

/-- `collect_members`: when the repository belongs to an organization, the
authors of verified commits that are organization members; otherwise just the
repository owner. -/
def collect_members (gh : GHData) (event : PullRequestEvent) (commits : List Commit) :
    List Str :=
  match event.organization with
  | some org =>
    commits.foldl (fun members commit =>
      if commit.verified.getD false then
        match commit.author.bind User.login with
        | some author_username =>
          if !members.contains author_username
              && gh.is_org_member org.login author_username then
            members ++ [author_username]
          else members
        | none => members
      else members) []
  | none => [event.repository.owner.login]

/-- The check input assembled by `process_pull_request_event` from the data
fetched through the GitHub client. -/
def pull_request_check_input (gh : GHData) (event : PullRequestEvent) : CheckInput :=
  let config := gh.config.getD defaultConfig
  { commits := gh.commits
    config := config
    head_ref := event.pull_request.head.ref_
    members :=
      if !config.members_signoff_is_required then collect_members gh event gh.commits
      else [] }

/-- `process_pull_request_event`: for an opened or synchronized pull request,
run the check and report one check run whose conclusion is `Success` when no
commit has errors, and `ActionRequired` with the override action otherwise.
The rendering of the output into the summary text is the parameter `render`;
the result is the list of check runs submitted to the reporting boundary
(`none` models a panic in `CheckRun::new`). -/
def process_pull_request_event (email_is_valid : Str → Bool)
    (render : CheckOutput → Str) (gh : GHData) (started_at completed_at : Nat)
    (event : PullRequestEvent) : Option (List CheckRun) :=
  if ¬(event.action = PullRequestEventAction.Opened ∨
       event.action = PullRequestEventAction.Synchronize) then
    some []
  else
    let output := check email_is_valid (pull_request_check_input gh event)
    let (conclusion, actions) :=
      if output.num_commits_with_errors = 0 then
        (CheckRunConclusion.Success, ([] : List CheckRunAction))
      else
        (CheckRunConclusion.ActionRequired,
         [{ label := OVERRIDE_ACTION_LABEL
            description := OVERRIDE_ACTION_DESCRIPTION
            identifier := OVERRIDE_ACTION_IDENTIFIER }])
    match CheckRun.new
        { actions := actions
          completed_at := completed_at
          conclusion := conclusion
          head_sha := event.pull_request.head.sha
          name := CHECK_NAME
          started_at := started_at
          status := CheckRunStatus.Completed
          summary := render output } with
    | some check_run => some [check_run]
    | none => none

/-- `process_check_run_event`: only a requested action carrying the override
identifier reports a check run, with conclusion `Success`. -/
def process_check_run_event (started_at completed_at : Nat)
    (event : CheckRunEvent) : Option (List CheckRun) :=
  if event.action ≠ CheckRunEventAction.RequestedAction then some []
  else
    match event.requested_action with
    | some requested_action =>
      if requested_action.identifier = OVERRIDE_ACTION_IDENTIFIER then
        match CheckRun.new
            { actions := []
              completed_at := completed_at
              conclusion := CheckRunConclusion.Success
              head_sha := event.check_run.head_sha
              name := CHECK_NAME
              started_at := started_at
              status := CheckRunStatus.Completed
              summary := OVERRIDE_ACTION_SUMMARY } with
        | some check_run => some [check_run]
        | none => none
      else some []
    | none => some []

/-- `process_merge_group_event`: when checks are requested for a merge group,
report one check run with conclusion `Success` without running the check. -/
def process_merge_group_event (started_at completed_at : Nat)
    (event : MergeGroupEvent) : Option (List CheckRun) :=
  if event.action ≠ MergeGroupEventAction.ChecksRequested then some []
  else
    match CheckRun.new
        { actions := []
          completed_at := completed_at
          conclusion := CheckRunConclusion.Success
          head_sha := event.merge_group.head_commit.id
          name := CHECK_NAME
          started_at := started_at
          status := CheckRunStatus.Completed
          summary := MERGE_GROUP_CHECKS_REQUESTED_SUMMARY } with
    | some check_run => some [check_run]
    | none => none

/-- `process_event`: dispatch on the event kind. -/
def process_event (email_is_valid : Str → Bool) (render : CheckOutput → Str)
    (gh : GHData) (started_at completed_at : Nat) : Event → Option (List CheckRun)
  | Event.CheckRun event => process_check_run_event started_at completed_at event
  | Event.MergeGroup event => process_merge_group_event started_at completed_at event
  | Event.PullRequest event =>
    process_pull_request_event email_is_valid render gh started_at completed_at event

/-- An email validity predicate accepting everything (concrete instance used
by witnesses; the theorems hold for an arbitrary predicate). -/
def validTrue : Str → Bool := fun _ => true

/-- An email validity predicate rejecting everything (concrete instance used
by witnesses). -/
def validFalse : Str → Bool := fun _ => false

/-- An email validity predicate accepting exactly the strings containing an
at-sign (concrete instance used by witnesses needing one valid and one
invalid email). -/
def validContainsAt : Str → Bool := fun e => e.contains '@'

/-- A rendering function producing an empty summary (concrete instance used by
witnesses; the theorems hold for an arbitrary rendering function). -/
def renderEmpty : CheckOutput → Str := fun _ => []

/-- A sample user. -/
def user1 : User :=
  { name := "user1".data, email := "user1@email.test".data, is_bot := false, login := none }

/-- A sample commit of `user1` without any sign-off. -/
def commitNoSignOff : Commit :=
  { author := some user1, committer := some user1, html_url := [], is_merge := false,
    message := "Test".data, sha := "sha1".data, verified := none }

/-- A sample commit of `user1` whose message remediates `sha1`. -/
def commitRemediation : Commit :=
  { author := some user1, committer := some user1, html_url := [], is_merge := false,
    message := "I, user1 <user1@email.test>, hereby add my Signed-off-by to this commit: sha1".data,
    sha := "sha2".data, verified := none }

/-- A configuration allowing individual remediation commits. -/
def configIndividual : Config :=
  { allow_remediation_commits := some { individual := some true, third_party := some false },
    require := none }

/-- A check input containing an unsigned commit followed by a commit that
remediates it. -/
def inputRemediation : CheckInput :=
  { commits := [commitNoSignOff, commitRemediation], config := configIndividual,
    head_ref := [], members := [] }

/-- A check input with the single commit `commitNoSignOff`. -/
def inputOneNoSignOff : CheckInput :=
  { commits := [commitNoSignOff], config := defaultConfig, head_ref := [], members := [] }

/-- The commit check output produced by `check` for `commitNoSignOff`. -/
def coNoSignOff : CommitCheckOutput :=
  { commit := commitNoSignOff, errors := [CommitError.SignOffNotFound], success_reason := none }

/-- A merge commit. -/
def commitMerge : Commit :=
  { author := some user1, committer := some user1, html_url := [], is_merge := true,
    message := [], sha := "m1".data, verified := none }

/-- A check input with the single commit `commitMerge`. -/
def inputOneMerge : CheckInput :=
  { commits := [commitMerge], config := defaultConfig, head_ref := [], members := [] }

/-- A commit of `user1` signed off by somebody else. -/
def commitMismatch : Commit :=
  { author := some user1, committer := some user1, html_url := [], is_merge := false,
    message := "Signed-off-by: userx <userx@email.test>".data, sha := "sha1".data,
    verified := none }

/-- A check input with the single commit `commitMismatch`. -/
def inputOneMismatch : CheckInput :=
  { commits := [commitMismatch], config := defaultConfig, head_ref := [], members := [] }

/-- The commit check output produced by `check` for `commitMismatch`. -/
def coMismatch : CommitCheckOutput :=
  { commit := commitMismatch, errors := [CommitError.SignOffMismatch], success_reason := none }


/-- A check run action label of 21 UTF-8 bytes whose 20th byte falls strictly
inside the two-byte encoding of its final character. -/
def badLabel : Str := List.replicate 19 'a' ++ ['é']

/-- A new check run input whose action label triggers the panic of
`String::truncate` at the reporting boundary. -/
def badCheckRunInput : NewCheckRunInput :=
  { actions := [{ label := badLabel, description := [], identifier := [] }],
    completed_at := 0, conclusion := CheckRunConclusion.Success, head_sha := [],
    name := [], started_at := 0, status := CheckRunStatus.Completed, summary := [] }

/-- A merge group event with action `checks_requested` (C8 counterexample). -/
def eventMG : MergeGroupEvent :=
  { action := MergeGroupEventAction.ChecksRequested, installation := { id := 1 },
    merge_group := { head_commit := { id := "sha".data } },
    repository := { name := [], owner := { login := [] } } }

/-- A pull request event fixture for the C7 witness. -/
def eventPR : PullRequestEvent :=
  { action := PullRequestEventAction.Opened, installation := { id := 1 },
    organization := none,
    pull_request := { base := { ref_ := [], sha := [] },
                      head := { ref_ := [], sha := [] }, html_url := [] },
    repository := { name := [], owner := { login := [] } } }

/-- GitHub client data for the C7 witness: one unsigned commit, no
configuration file. -/
def ghOneCommit : GHData :=
  { commits := [commitNoSignOff], config := none, is_org_member := fun _ _ => false }

/-- The check run reported for `eventPR` over `ghOneCommit`. -/
def runC7 : CheckRun :=
  { actions := [{ label := OVERRIDE_ACTION_LABEL,
                  description := OVERRIDE_ACTION_DESCRIPTION,
                  identifier := OVERRIDE_ACTION_IDENTIFIER }],
    completed_at := 0, conclusion := CheckRunConclusion.ActionRequired, head_sha := [],
    name := CHECK_NAME, started_at := 0, status := CheckRunStatus.Completed, summary := [] }

example :
    parseSignOffLine "Signed-off-by: user1 <user1@email.test>".data =
      some { name := "user1".data, email := "user1@email.test".data } := by decide

example :
    parseSignOffLine "SIGNED-OFF-BY:  user1  <user1@email.test>   ".data =
      some { name := " user1 ".data, email := "user1@email.test".data } := by decide

example : parseSignOffLine "Signed-off-by: user1 user1@email.test".data = none := by decide

example : parseSignOffLine "Signed-off-by: <user1@email.test>".data = none := by decide

example :
    parseIndividualRemediationLine
      "I, user1 <user1@email.test>, hereby add my Signed-off-by to this commit: sha1".data =
    some ("user1".data, "user1@email.test".data, "sha1".data) := by decide

example :
    parseThirdPartyRemediationLine
      "On behalf of user1 <user1@email.test>, I, user2 <user2@email.test>, hereby add my Signed-off-by to this commit: sha1".data =
    some ("user1".data, "user1@email.test".data, "user2".data, "user2@email.test".data, "sha1".data) := by decide

/-- Claim C5: no remediation at all is collected when individual remediation
commits are not allowed; third-party remediation statements are scanned only
when both the individual and the third-party features are enabled; and a
third-party match is kept exactly when the representative matches the author
or the committer, the declarant always being recorded as the remediation
subject. -/
theorem claim_c5 (config : Config) (commits : List Commit) :
    (config.individual_remediation_commits_are_allowed = false →
        get_remediations config commits = [])
  ∧ (config.individual_remediation_commits_are_allowed = true →
      config.third_party_remediation_commits_are_allowed = false →
        get_remediations config commits =
          (commits.map collect_individual_remediations).flatten)
  ∧ (∀ (dn de rn re sha : Str) (commit : Commit),
      (({ name := rn, email := re, is_bot := false, login := none } : User).matches commit.author = true ∨
       ({ name := rn, email := re, is_bot := false, login := none } : User).matches commit.committer = true) →
        Remediation.new dn de (some rn) (some re) sha commit =
          Except.ok { declarant := { name := dn, email := de, is_bot := false, login := none },
                      target_sha := sha })
  ∧ (∀ (dn de rn re sha : Str) (commit : Commit),
      ({ name := rn, email := re, is_bot := false, login := none } : User).matches commit.author = false →
      ({ name := rn, email := re, is_bot := false, login := none } : User).matches commit.committer = false →
        Remediation.new dn de (some rn) (some re) sha commit =
          Except.error "representative must match the author or committer".data) := by
  refine ⟨?_, ?_, ?_, ?_⟩
  · intro h
    simp [get_remediations, h]
  · intro h1 h2
    simp [get_remediations, h1, h2]
  · intro dn de rn re sha commit hmatch
    rcases hmatch with h | h <;> simp [Remediation.new, h]
  · intro dn de rn re sha commit h1 h2
    simp [Remediation.new, h1, h2]

theorem claim_c5_witness :
    Remediation.new "user2".data "user2@email.test".data
        (some "user1".data) (some "user1@email.test".data) "sha1".data commitNoSignOff =
      Except.ok { declarant := { name := "user2".data, email := "user2@email.test".data,
                                 is_bot := false, login := none },
                  target_sha := "sha1".data } :=
  (claim_c5 configIndividual []).2.2.1 "user2".data "user2@email.test".data
    "user1".data "user1@email.test".data "sha1".data commitNoSignOff (Or.inl (by decide))

/-- Claim C6: email validation checks the committer email first, pushing
`InvalidCommitterEmail` ahead of any author error; the author email is only
validated when it differs (case-sensitively) from the committer email, and an
invalid differing author email always yields `InvalidAuthorEmail`, whether
the committer email is invalid, valid or absent; when both emails are invalid
and differ the error list is exactly committer error then author error. -/
theorem claim_c6 (email_is_valid : Str → Bool) (c : Commit) :
    (∀ u, c.committer = some u → email_is_valid u.email = false →
      ∃ tail, validate_emails email_is_valid c =
        Except.error (CommitError.InvalidCommitterEmail :: tail))
  ∧ (∀ u a, c.committer = some u → c.author = some a → a.email = u.email →
      ∀ errs, validate_emails email_is_valid c = Except.error errs →
        CommitError.InvalidAuthorEmail ∉ errs)
  ∧ (∀ u a, c.committer = some u → c.author = some a → a.email ≠ u.email →
      email_is_valid u.email = false → email_is_valid a.email = false →
      validate_emails email_is_valid c =
        Except.error [CommitError.InvalidCommitterEmail, CommitError.InvalidAuthorEmail])
  ∧ (∀ u a, c.committer = some u → c.author = some a → a.email ≠ u.email →
      email_is_valid u.email = true → email_is_valid a.email = false →
      validate_emails email_is_valid c =
        Except.error [CommitError.InvalidAuthorEmail])
  ∧ (∀ a, c.committer = none → c.author = some a →
      email_is_valid a.email = false →
      validate_emails email_is_valid c =
        Except.error [CommitError.InvalidAuthorEmail]) := by
  refine ⟨?_, ?_, ?_, ?_, ?_⟩
  · intro u hu hv
    rcases ha : c.author with _ | a
    · exact ⟨[], by simp [validate_emails, hu, ha, hv]⟩
    · by_cases hdiff : a.email = u.email
      · exact ⟨[], by simp [validate_emails, hu, ha, hv, hdiff]⟩
      · by_cases hva : email_is_valid a.email = false
        · exact ⟨[CommitError.InvalidAuthorEmail],
            by simp [validate_emails, hu, ha, hv, hdiff, hva]⟩
        · exact ⟨[], by simp [validate_emails, hu, ha, hv, hdiff, hva]⟩
  · intro u a hu ha hsame errs herr
    by_cases hv : email_is_valid u.email = false
    · simp [validate_emails, hu, ha, hsame, hv] at herr
      simp [← herr]
    · simp [validate_emails, hu, ha, hsame, hv] at herr
  · intro u a hu ha hdiff hvu hva
    simp [validate_emails, hu, ha, hdiff, hvu, hva]
  · intro u a hu ha hdiff hvu hva
    simp [validate_emails, hu, ha, hdiff, hvu, hva]
  · intro a hu ha hva
    simp [validate_emails, hu, ha, hva]

theorem claim_c6_witness :
    (validate_emails validFalse
        { author := some { name := [], email := "worse".data, is_bot := false, login := none },
          committer := some { name := [], email := "bad".data, is_bot := false, login := none },
          html_url := [], is_merge := false, message := [], sha := [], verified := none } =
      Except.error [CommitError.InvalidCommitterEmail, CommitError.InvalidAuthorEmail])
  ∧ (validate_emails validContainsAt
        { author := some { name := [], email := "invalid".data, is_bot := false, login := none },
          committer := some { name := [], email := "user2@email.test".data, is_bot := false,
                              login := none },
          html_url := [], is_merge := false, message := [], sha := [], verified := none } =
      Except.error [CommitError.InvalidAuthorEmail])
  ∧ (validate_emails validContainsAt
        { author := some { name := [], email := "invalid".data, is_bot := false, login := none },
          committer := none,
          html_url := [], is_merge := false, message := [], sha := [], verified := none } =
      Except.error [CommitError.InvalidAuthorEmail]) :=
  ⟨(claim_c6 validFalse _).2.2.1
      { name := [], email := "bad".data, is_bot := false, login := none }
      { name := [], email := "worse".data, is_bot := false, login := none }
      rfl rfl (by decide) rfl rfl,
   (claim_c6 validContainsAt _).2.2.2.1
      { name := [], email := "user2@email.test".data, is_bot := false, login := none }
      { name := [], email := "invalid".data, is_bot := false, login := none }
      rfl rfl (by decide) (by decide) (by decide),
   (claim_c6 validContainsAt _).2.2.2.2
      { name := [], email := "invalid".data, is_bot := false, login := none }
      rfl rfl (by decide)⟩


/-- Claim C9: refuted on the code. `CheckRun::new` truncates the action label
at byte index 20, which is not a character boundary of `badLabel`, so
`String::truncate` panics (modelled as `none`): the construction is not a
silent truncation for every possible input string. -/
theorem claim_c9_panic : CheckRun.new badCheckRunInput = none := by decide

/-- The commits of the check output are the image of the input commits under
the per-commit evaluation, with the remediations collected once up front. -/
theorem check_commits_eq (email_is_valid : Str → Bool) (input : CheckInput) :
    (check email_is_valid input).commits =
      input.commits.map
        (check_commit input email_is_valid (get_remediations input.config input.commits)) := rfl

/-- `remediations_match` spelt out: some remediation targets the commit sha
and its declarant matches the author or the committer. -/
theorem remediations_match_iff (remediations : List Remediation) (c : Commit) :
    remediations_match remediations c = true ↔
      ∃ r ∈ remediations, r.target_sha = c.sha ∧
        (r.declarant.matches c.author = true ∨ r.declarant.matches c.committer = true) := by
  simp only [remediations_match, List.any_eq_true]
  refine exists_congr fun r => and_congr_right fun _ => ?_
  unfold Remediation.matches_commit
  split
  · rename_i h
    simp [h]
  · rename_i h
    simp only [not_not] at h
    simp [h]

/-- The error list returned by `validate_emails` only contains email errors. -/
theorem validate_emails_error_mem (email_is_valid : Str → Bool) (c : Commit)
    (errs : List CommitError)
    (h : validate_emails email_is_valid c = Except.error errs) :
    CommitError.SignOffMismatch ∉ errs ∧ CommitError.SignOffNotFound ∉ errs := by
  unfold validate_emails at h
  rcases hc : c.committer with _ | u <;> rcases ha : c.author with _ | a <;>
    simp only [hc, ha, Option.map_none', Option.map_some'] at h <;>
    repeat' split at h
  all_goals
    first
      | exact Except.noConfusion h
      | (injection h with h2; rw [← h2]; decide)

/-- Steps 2 to 4 never produce both a success reason and an error, and the
only success reason they can set is `ValidSignOff`. -/
theorem check_commit_pre_invariant (email_is_valid : Str → Bool) (c : Commit) :
    ((check_commit_pre email_is_valid c).errors ≠ [] →
      (check_commit_pre email_is_valid c).success_reason = none)
  ∧ (∀ r, (check_commit_pre email_is_valid c).success_reason = some r →
      (check_commit_pre email_is_valid c).errors = [] ∧ r = CommitSuccessReason.ValidSignOff) := by
  rcases hval : validate_emails email_is_valid c with errors | u
  · simp [check_commit_pre, hval, Except.isOk, Except.toBool]
  · rcases hso : get_signoffs c with _ | ⟨s, ss⟩
    · simp [check_commit_pre, hval, hso, Except.isOk, Except.toBool]
    · rcases hmatch : signoffs_match (s :: ss) c with _ | _
      · simp [check_commit_pre, hval, hso, hmatch, Except.isOk, Except.toBool]
      · simp [check_commit_pre, hval, hso, hmatch, Except.isOk, Except.toBool]

/-- The per-commit loop body never produces both a success reason and a
non-empty error list. -/
theorem check_commit_invariant (input : CheckInput) (email_is_valid : Str → Bool)
    (remediations : List Remediation) (c : Commit) :
    ((check_commit input email_is_valid remediations c).errors ≠ [] →
      (check_commit input email_is_valid remediations c).success_reason = none)
  ∧ (∀ r, (check_commit input email_is_valid remediations c).success_reason = some r →
      (check_commit input email_is_valid remediations c).errors = []) := by
  simp only [check_commit]
  split
  · exact ⟨fun h => absurd rfl h, fun r _ => rfl⟩
  · split
    · exact ⟨fun h => absurd rfl h, fun r _ => rfl⟩
    · exact ⟨(check_commit_pre_invariant email_is_valid c).1,
        fun r h => ((check_commit_pre_invariant email_is_valid c).2 r h).1⟩

/-- Claim C3: in every commit check output produced by `check`, a non-empty
error list forces an absent success reason and a present success reason forces
an empty error list — never both. -/
theorem claim_c3 (email_is_valid : Str → Bool) (input : CheckInput)
    (co : CommitCheckOutput) (hmem : co ∈ (check email_is_valid input).commits) :
    (co.errors ≠ [] → co.success_reason = none)
  ∧ (∀ r, co.success_reason = some r → co.errors = []) := by
  rw [check_commits_eq] at hmem
  rcases List.mem_map.mp hmem with ⟨c, _, rfl⟩
  exact check_commit_invariant input email_is_valid _ c

theorem claim_c3_witness :
    (coNoSignOff.errors ≠ [] → coNoSignOff.success_reason = none)
  ∧ (∀ r, coNoSignOff.success_reason = some r → coNoSignOff.errors = []) :=
  claim_c3 validTrue inputOneNoSignOff coNoSignOff (by decide)

/-- Claim C1: for a commit that is not skipped, when steps 2 to 4 set no
success reason and a collected remediation targets the commit with a declarant
matching its author or committer, the accumulated errors are cleared and the
success reason becomes `ValidSignOffInRemediationCommit`; and when the commit
already succeeded through a direct sign-off, the remediation step leaves its
output untouched. -/
theorem claim_c1 (email_is_valid : Str → Bool) (input : CheckInput) (i : Nat) (c : Commit)
    (hc : input.commits[i]? = some c)
    (hskip : (should_skip_commit input c).1 = false) :
    ((check_commit_pre email_is_valid c).success_reason = none →
      (∃ r ∈ get_remediations input.config input.commits,
        r.target_sha = c.sha ∧
          (r.declarant.matches c.author = true ∨ r.declarant.matches c.committer = true)) →
      (check email_is_valid input).commits[i]? =
        some { commit := c, errors := [],
               success_reason := some CommitSuccessReason.ValidSignOffInRemediationCommit })
  ∧ ((check_commit_pre email_is_valid c).success_reason =
        some CommitSuccessReason.ValidSignOff →
      (check email_is_valid input).commits[i]? =
        some (check_commit_pre email_is_valid c)) := by
  have hget : (check email_is_valid input).commits[i]? =
      some (check_commit input email_is_valid
        (get_remediations input.config input.commits) c) := by
    rw [check_commits_eq, List.getElem?_map, hc, Option.map_some']
  constructor
  · intro hpre hrem
    rw [hget]
    have hmatch : remediations_match (get_remediations input.config input.commits) c = true :=
      (remediations_match_iff _ c).mpr hrem
    unfold check_commit
    rw [if_neg (by simp [hskip])]
    rw [if_pos (by simp [hpre, hmatch])]
    have hcommit : (check_commit_pre email_is_valid c).commit = c := by
      unfold check_commit_pre
      rfl
    simp [hcommit]
  · intro hpre
    rw [hget]
    unfold check_commit
    rw [if_neg (by simp [hskip])]
    rw [if_neg (by simp [hpre])]

theorem claim_c1_witness :
    (check validTrue inputRemediation).commits[0]? =
      some { commit := commitNoSignOff, errors := [],
             success_reason := some CommitSuccessReason.ValidSignOffInRemediationCommit } :=
  (claim_c1 validTrue inputRemediation 0 commitNoSignOff rfl (by decide)).1
    (by decide) (by decide)

/-- Claim C2: the skip classification tries the merge rule, then the bot rule,
then the trusted-member rule, the first match winning, and otherwise does not
skip; a skipped commit contributes no errors and carries its skip reason as
its success reason in the output of `check`. -/
theorem claim_c2 (input : CheckInput) (c : Commit) :
    (c.is_merge = true →
      should_skip_commit input c = (true, some CommitSuccessReason.IsMerge))
  ∧ (c.is_merge = false →
      Option.any (fun author => author.is_bot) c.author = true →
      should_skip_commit input c = (true, some CommitSuccessReason.FromBot))
  ∧ (∀ lg, c.is_merge = false →
      Option.any (fun author => author.is_bot) c.author = false →
      input.config.members_signoff_is_required = false →
      c.verified.getD false = true →
      c.author.bind User.login = some lg →
      input.members.contains lg = true →
      should_skip_commit input c = (true, some CommitSuccessReason.FromMember))
  ∧ (c.is_merge = false →
      Option.any (fun author => author.is_bot) c.author = false →
      (!input.config.members_signoff_is_required && c.verified.getD false &&
        Option.any (fun lg => input.members.contains lg) (c.author.bind User.login)) = false →
      should_skip_commit input c = (false, none))
  ∧ (∀ (email_is_valid : Str → Bool) (i : Nat) (c' : Commit)
        (r : Option CommitSuccessReason),
      input.commits[i]? = some c' →
      should_skip_commit input c' = (true, r) →
      (check email_is_valid input).commits[i]? =
        some { commit := c', errors := [], success_reason := r }) := by
  refine ⟨?_, ?_, ?_, ?_, ?_⟩
  · intro h
    simp [should_skip_commit, h]
  · intro h1 h2
    simp [should_skip_commit, h1, h2]
  · intro lg h1 h2 h3 h4 h5 h6
    have h6' : lg ∈ input.members := by simpa using h6
    simp [should_skip_commit, h1, h2, h3, h4, h5, h6, h6']
  · intro h1 h2 h3
    simp only [should_skip_commit, h1, h2, h3]
    simp
  · intro email_is_valid i c' r hc' hskip
    rw [check_commits_eq, List.getElem?_map, hc', Option.map_some']
    unfold check_commit
    rw [if_pos (by rw [hskip]), hskip]

theorem claim_c2_witness :
    (check validTrue inputOneMerge).commits[0]? =
      some { commit := commitMerge, errors := [],
             success_reason := some CommitSuccessReason.IsMerge } :=
  (claim_c2 inputOneMerge commitMerge).2.2.2.2
    validTrue 0 commitMerge (some CommitSuccessReason.IsMerge) rfl (by decide)

/-- Claim C10: whenever `SignOffMismatch` is among the errors of a commit in
the output of `check`, it is the only error of that commit. -/
theorem claim_c10 (email_is_valid : Str → Bool) (input : CheckInput)
    (co : CommitCheckOutput) (hmem : co ∈ (check email_is_valid input).commits)
    (hmm : CommitError.SignOffMismatch ∈ co.errors) :
    co.errors = [CommitError.SignOffMismatch] := by
  rw [check_commits_eq] at hmem
  rcases List.mem_map.mp hmem with ⟨c, _, rfl⟩
  simp only [check_commit] at hmm ⊢
  rcases hskip : (should_skip_commit input c).1 with _ | _
  · simp only [hskip, Bool.false_eq_true, if_false] at hmm ⊢
    rcases hcond : ((check_commit_pre email_is_valid c).success_reason.isNone &&
        remediations_match (get_remediations input.config input.commits) c) with _ | _
    · simp only [hcond, Bool.false_eq_true, if_false] at hmm ⊢
      revert hmm
      rcases hval : validate_emails email_is_valid c with errors | u
      · have hnotmem := (validate_emails_error_mem email_is_valid c errors hval).1
        rcases hso : get_signoffs c with _ | ⟨s, ss⟩ <;>
          simp [check_commit_pre, hval, hso, Except.isOk, Except.toBool, hnotmem]
      · rcases hso : get_signoffs c with _ | ⟨s, ss⟩
        · simp [check_commit_pre, hval, hso, Except.isOk, Except.toBool]
        · rcases hmatch : signoffs_match (s :: ss) c with _ | _ <;>
            simp [check_commit_pre, hval, hso, hmatch, Except.isOk, Except.toBool]
    · simp only [hcond, if_true] at hmm
      simp at hmm
  · simp only [hskip, if_true] at hmm
    simp at hmm

theorem claim_c10_witness :
    coMismatch.errors = [CommitError.SignOffMismatch] :=
  claim_c10 validTrue inputOneMismatch coMismatch (by decide) (by decide)

/-- The fields of a check run successfully built by `CheckRun::new`: the
conclusion, head sha, name, status and timestamps pass through unchanged, and
the actions are the truncated actions. -/
theorem CheckRun_new_some (input : NewCheckRunInput) (run : CheckRun)
    (h : CheckRun.new input = some run) :
    run.conclusion = input.conclusion ∧ run.head_sha = input.head_sha ∧
    run.name = input.name ∧ run.status = input.status ∧
    input.actions.mapM truncate_action = some run.actions := by
  rcases hs : rustTruncate input.summary MAX_OUTPUT_SUMMARY_LENGTH with _ | s
  · simp only [CheckRun.new, hs] at h
    exact Option.noConfusion h
  · rcases ha : input.actions.mapM truncate_action with _ | acts
    · simp only [CheckRun.new, hs, ha] at h
      exact Option.noConfusion h
    · simp only [CheckRun.new, hs, ha, Option.some.injEq] at h
      rw [← h]
      exact ⟨rfl, rfl, rfl, rfl, by simp [ha]⟩

/-- Claim C7: for an opened or synchronized pull request event, the reported
check run has conclusion `Success` exactly when the check output has no commit
with errors, and otherwise has conclusion `ActionRequired` with exactly one
attached override action carrying the override label, description and
identifier. -/
theorem claim_c7 (email_is_valid : Str → Bool) (render : CheckOutput → Str)
    (gh : GHData) (started_at completed_at : Nat) (event : PullRequestEvent)
    (runs : List CheckRun)
    (haction : event.action = PullRequestEventAction.Opened ∨
      event.action = PullRequestEventAction.Synchronize)
    (hrun : process_pull_request_event email_is_valid render gh started_at completed_at
      event = some runs) :
    ∃ run, runs = [run]
      ∧ ((check email_is_valid (pull_request_check_input gh event)).num_commits_with_errors = 0 →
          run.conclusion = CheckRunConclusion.Success ∧ run.actions = [])
      ∧ ((check email_is_valid (pull_request_check_input gh event)).num_commits_with_errors ≠ 0 →
          run.conclusion = CheckRunConclusion.ActionRequired ∧
          run.actions = [{ label := OVERRIDE_ACTION_LABEL,
                           description := OVERRIDE_ACTION_DESCRIPTION,
                           identifier := OVERRIDE_ACTION_IDENTIFIER }]) := by
  simp only [process_pull_request_event] at hrun
  rw [if_neg (not_not_intro haction)] at hrun
  by_cases hn :
    (check email_is_valid (pull_request_check_input gh event)).num_commits_with_errors = 0
  · simp only [hn, if_true, if_pos] at hrun
    rcases hnew : CheckRun.new
        { actions := []
          completed_at := completed_at
          conclusion := CheckRunConclusion.Success
          head_sha := event.pull_request.head.sha
          name := CHECK_NAME
          started_at := started_at
          status := CheckRunStatus.Completed
          summary := render (check email_is_valid (pull_request_check_input gh event)) }
      with _ | run
    · rw [hnew] at hrun
      exact Option.noConfusion hrun
    · rw [hnew] at hrun
      obtain ⟨hconc, _, _, _, hacts⟩ := CheckRun_new_some _ _ hnew
      refine ⟨run, by simpa using hrun.symm, fun _ => ⟨hconc, ?_⟩, fun hn2 => absurd hn hn2⟩
      have : some ([] : List CheckRunAction) = some run.actions := hacts
      simpa using this.symm
  · simp only [hn, if_false, if_neg] at hrun
    rcases hnew : CheckRun.new
        { actions := [{ label := OVERRIDE_ACTION_LABEL
                        description := OVERRIDE_ACTION_DESCRIPTION
                        identifier := OVERRIDE_ACTION_IDENTIFIER }]
          completed_at := completed_at
          conclusion := CheckRunConclusion.ActionRequired
          head_sha := event.pull_request.head.sha
          name := CHECK_NAME
          started_at := started_at
          status := CheckRunStatus.Completed
          summary := render (check email_is_valid (pull_request_check_input gh event)) }
      with _ | run
    · rw [hnew] at hrun
      exact Option.noConfusion hrun
    · rw [hnew] at hrun
      obtain ⟨hconc, _, _, _, hacts⟩ := CheckRun_new_some _ _ hnew
      refine ⟨run, by simpa using hrun.symm, fun hn2 => absurd hn2 hn, fun _ => ⟨hconc, ?_⟩⟩
      have heval : ([{ label := OVERRIDE_ACTION_LABEL
                       description := OVERRIDE_ACTION_DESCRIPTION
                       identifier := OVERRIDE_ACTION_IDENTIFIER }] :
          List CheckRunAction).mapM truncate_action =
          some [{ label := OVERRIDE_ACTION_LABEL
                  description := OVERRIDE_ACTION_DESCRIPTION
                  identifier := OVERRIDE_ACTION_IDENTIFIER }] := by decide
      rw [heval] at hacts
      simpa using hacts.symm



/-- Claim C8 as stated is false: a merge group event with action
`checks_requested` is neither a pull request opened/synchronized event nor a
check run event carrying the override identifier, yet processing it submits
one check run to the reporting boundary. -/
theorem claim_c8_counterexample :
    Option.map List.length
      (process_event validTrue renderEmpty ghOneCommit 0 0 (Event.MergeGroup eventMG)) =
      some 1 := by decide

/-- Claim C8, amended: processing an event that is neither a pull request
event with action opened or synchronized, nor a check run event with a
requested action carrying the override identifier, nor a merge group event
with action checks requested, makes no call to the reporting boundary. -/
theorem claim_c8_amended (email_is_valid : Str → Bool) (render : CheckOutput → Str)
    (gh : GHData) (started_at completed_at : Nat) (event : Event)
    (hpr : ∀ e, event = Event.PullRequest e →
      e.action ≠ PullRequestEventAction.Opened ∧
      e.action ≠ PullRequestEventAction.Synchronize)
    (hcr : ∀ e, event = Event.CheckRun e →
      e.action = CheckRunEventAction.RequestedAction →
      ∀ ra, e.requested_action = some ra → ra.identifier ≠ OVERRIDE_ACTION_IDENTIFIER)
    (hmg : ∀ e, event = Event.MergeGroup e →
      e.action ≠ MergeGroupEventAction.ChecksRequested) :
    process_event email_is_valid render gh started_at completed_at event = some [] := by
  cases event with
  | PullRequest e =>
    obtain ⟨h1, h2⟩ := hpr e rfl
    simp [process_event, process_pull_request_event, h1, h2]
  | CheckRun e =>
    by_cases haction : e.action = CheckRunEventAction.RequestedAction
    · rcases hra : e.requested_action with _ | ra
      · simp [process_event, process_check_run_event, haction, hra]
      · have hid := hcr e rfl haction ra hra
        simp [process_event, process_check_run_event, haction, hra, hid]
    · simp [process_event, process_check_run_event, haction]
  | MergeGroup e =>
    have h1 := hmg e rfl
    simp [process_event, process_merge_group_event, h1]

theorem claim_c8_witness :
    process_event validTrue renderEmpty ghOneCommit 0 0
      (Event.MergeGroup { action := MergeGroupEventAction.Other, installation := { id := 1 },
                          merge_group := { head_commit := { id := [] } },
                          repository := { name := [], owner := { login := [] } } }) =
      some [] :=
  claim_c8_amended validTrue renderEmpty ghOneCommit 0 0 _
    (fun e h => Event.noConfusion h)
    (fun e h => Event.noConfusion h)
    (fun e h => by cases h; decide)

theorem claim_c7_witness :
    ∃ run, [runC7] = [run]
      ∧ ((check validTrue (pull_request_check_input ghOneCommit eventPR)).num_commits_with_errors = 0 →
          run.conclusion = CheckRunConclusion.Success ∧ run.actions = [])
      ∧ ((check validTrue (pull_request_check_input ghOneCommit eventPR)).num_commits_with_errors ≠ 0 →
          run.conclusion = CheckRunConclusion.ActionRequired ∧
          run.actions = [{ label := OVERRIDE_ACTION_LABEL,
                           description := OVERRIDE_ACTION_DESCRIPTION,
                           identifier := OVERRIDE_ACTION_IDENTIFIER }]) :=
  claim_c7 validTrue renderEmpty ghOneCommit 0 0 eventPR [runC7]
    (Or.inl rfl) (by decide)

theorem ciChar_refl (c : Char) : ciChar c c = true := by simp [ciChar]

/-- A string is a case-insensitive prefix of itself followed by anything. -/
theorem isPrefixOfCI_self_append : ∀ (s t : Str), isPrefixOfCI s (s ++ t) = true
  | [], _ => rfl
  | c :: rest, t => by
    simp only [List.cons_append, isPrefixOfCI, ciChar_refl, Bool.true_and]
    exact isPrefixOfCI_self_append rest t

/-- A case-insensitive prefix test only looks at the first characters. -/
theorem isPrefixOfCI_append_right : ∀ (pre p r : Str), pre.length ≤ p.length →
    isPrefixOfCI pre (p ++ r) = isPrefixOfCI pre p
  | [], _, _, _ => rfl
  | _ :: _, [], _, h => by simp at h
  | a :: pre, b :: p, r, h => by
    simp only [List.cons_append, isPrefixOfCI]
    congr 1
    exact isPrefixOfCI_append_right pre p r (by simpa using h)

/-- When `sep` occurs nowhere in `t`, it is a prefix of no suffix of `t`. -/
theorem containsCI_false_drop (sep : Str) : ∀ (t : Str),
    containsCI sep t = false → ∀ m, isPrefixOfCI sep (t.drop m) = false
  | [], h, m => by
    rw [List.drop_nil]
    simpa [containsCI] using h
  | c :: rest, h, m => by
    have h2 : isPrefixOfCI sep (c :: rest) = false ∧ containsCI sep rest = false := by
      simpa [containsCI, Bool.or_eq_false_iff] using h
    cases m with
    | zero => exact h2.1
    | succ m =>
      rw [List.drop_succ_cons]
      exact containsCI_false_drop sep rest h2.2 m

/-- A closing bracket is not case-insensitively equal to a whitespace
character. -/
theorem ciChar_gt_ws (w : Char) (h : isRegexWs w = true) : ciChar '>' w = false := by
  simp only [isRegexWs, Bool.or_eq_true, Bool.and_eq_true, beq_iff_eq,
    decide_eq_true_eq] at h
  have h62 : lowerNat '>' = 62 := by decide
  have hlow : lowerNat w = w.toNat := by
    unfold lowerNat
    rw [if_neg]
    omega
  simp only [ciChar, h62, hlow, beq_eq_false_iff_ne, ne_eq]
  omega

/-- The greedy backtracking search returns the split at `i` when the attempt
at `i` succeeds and no position to the right of `i` carries the literal. -/
theorem goDown_eq_some {β : Type} (sep : Str) (k : Str → Option β) (s : Str)
    (i : Nat) (r : Str × β) :
    ∀ n, i ≤ n → tryAt sep k s i = some r →
      (∀ j, i < j → j ≤ n → isPrefixOfCI sep (s.drop j) = false) →
      goDown sep k s n = some r := by
  intro n
  induction n with
  | zero =>
    intro hin htry _
    have h0 : i = 0 := Nat.le_zero.mp hin
    subst h0
    simpa [goDown] using htry
  | succ m ih =>
    intro hin htry habove
    rcases Nat.lt_or_ge i (m + 1) with hlt | hge
    · have hnone : tryAt sep k s (m + 1) = none := by
        unfold tryAt
        rw [habove (m + 1) hlt (Nat.le_refl _)]
        simp
      show (tryAt sep k s (m + 1) <|> goDown sep k s m) = some r
      rw [hnone]
      exact ih (Nat.lt_succ_iff.mp hlt) htry
        (fun j h1 h2 => habove j h1 (Nat.le_succ_of_le h2))
    · have hi : i = m + 1 := Nat.le_antisymm hin hge
      show (tryAt sep k s (m + 1) <|> goDown sep k s m) = some r
      rw [← hi, htry]
      rfl

/-- The greedy split of `a ++ sep ++ tail` returns the capture `a` when the
continuation accepts `tail` and the literal occurs nowhere after the start of
`sep ++ tail`. -/
theorem greedySplit_eq {β : Type} (sep : Str) (k : Str → Option β)
    (a tail : Str) (b : β) (hk : k tail = some b)
    (hno : ∀ j, 0 < j → isPrefixOfCI sep ((sep ++ tail).drop j) = false) :
    greedySplit sep k (a ++ (sep ++ tail)) = some (a, b) := by
  have hdropa : (a ++ (sep ++ tail)).drop a.length = sep ++ tail := List.drop_left a _
  have hdropas : (a ++ (sep ++ tail)).drop (a.length + sep.length) = tail := by
    rw [← List.append_assoc, ← List.length_append a sep, List.drop_left]
  have htry : tryAt sep k (a ++ (sep ++ tail)) a.length = some (a, b) := by
    unfold tryAt
    rw [hdropa, hdropas, hk, isPrefixOfCI_self_append, if_pos rfl, List.take_left]
  show goDown sep k (a ++ (sep ++ tail)) (a ++ (sep ++ tail)).length = some (a, b)
  apply goDown_eq_some sep k _ a.length (a, b) _ (by simp) htry
  intro j h1 h2
  have hj : (a ++ (sep ++ tail)).drop j = (sep ++ tail).drop (j - a.length) := by
    obtain ⟨m, rfl⟩ : ∃ m, j = a.length + m := ⟨j - a.length, by omega⟩
    rw [List.drop_append]
    congr 1
    omega
  rw [hj]
  exact hno (j - a.length) (by omega)

/-- Claim C4, amended: a line made of the sign-off marker (in any case), an
arbitrary name capture, the bracket separator, an email capture free of the
separator, a closing bracket and trailing whitespace parses into exactly that
name and email, taken verbatim (in particular whitespace around them is kept,
not trimmed); and a commit whose message contains no matching line gets
`SignOffNotFound`, never `SignOffMismatch`. -/
theorem claim_c4_amended :
    (∀ (p n e ws : Str),
      isPrefixOfCI signOffLead p = true → p.length = signOffLead.length →
      ws.all isRegexWs = true →
      containsCI " <".data (e ++ (">".data ++ ws)) = false →
      parseSignOffLine (p ++ (n ++ (" <".data ++ (e ++ (">".data ++ ws))))) =
        some { name := n, email := e })
  ∧ (∀ (input : CheckInput) (email_is_valid : Str → Bool)
        (remediations : List Remediation) (c : Commit),
      (should_skip_commit input c).1 = false →
      get_signoffs c = [] →
      CommitError.SignOffMismatch ∉ (check_commit input email_is_valid remediations c).errors
      ∧ (remediations_match remediations c = false →
          CommitError.SignOffNotFound ∈
            (check_commit input email_is_valid remediations c).errors)) := by
  constructor
  · intro p n e ws hp hlen hws hno
    have hpre : isPrefixOfCI signOffLead
        (p ++ (n ++ (" <".data ++ (e ++ (">".data ++ ws))))) = true := by
      rw [isPrefixOfCI_append_right signOffLead p _ (le_of_eq hlen.symm)]
      exact hp
    have hdrop : (p ++ (n ++ (" <".data ++ (e ++ (">".data ++ ws))))).drop
        signOffLead.length = n ++ (" <".data ++ (e ++ (">".data ++ ws))) := by
      rw [← hlen, List.drop_left]
    have hinner : greedySplit ">".data
        (fun tail => if tail.all isRegexWs then some () else none)
        (e ++ (">".data ++ ws)) = some (e, ()) := by
      apply greedySplit_eq
      · rw [if_pos hws]
      · intro j hj
        obtain ⟨m, rfl⟩ : ∃ m, j = 1 + m := ⟨j - 1, by omega⟩
        rw [show (">".data ++ ws) = [('>' : Char)] ++ ws from rfl,
          show (1 : Nat) + m = [('>' : Char)].length + m from rfl, List.drop_append]
        cases hd : ws.drop m with
        | nil => rfl
        | cons w rest =>
          have hw : isRegexWs w = true := by
            have hmem : w ∈ ws := List.drop_subset m ws (hd ▸ List.mem_cons_self w rest)
            exact List.all_eq_true.mp hws w hmem
          simp [isPrefixOfCI, ciChar_gt_ws w hw]
    have hsplit : greedySplit " <".data
        (fun t => Option.map Prod.fst
          (greedySplit ">".data
            (fun tail => if tail.all isRegexWs then some () else none) t))
        (n ++ (" <".data ++ (e ++ (">".data ++ ws)))) = some (n, e) := by
      apply greedySplit_eq
      · rw [hinner]
        rfl
      · intro j hj
        rcases j with _ | _ | j2
        · omega
        · rw [show (" <".data ++ (e ++ (">".data ++ ws))).drop 1 =
              ('<' : Char) :: (e ++ (">".data ++ ws)) from rfl]
          simp [isPrefixOfCI, show ciChar ' ' '<' = false from by decide]
        · rw [show (" <".data ++ (e ++ (">".data ++ ws))).drop (j2 + 2) =
              (e ++ (">".data ++ ws)).drop j2 from rfl]
          exact containsCI_false_drop _ _ hno j2
    unfold parseSignOffLine
    rw [if_pos hpre, hdrop, hsplit]
  · intro input email_is_valid remediations c hskip hempty
    have hpre : ∃ L, check_commit_pre email_is_valid c =
        { commit := c, errors := L ++ [CommitError.SignOffNotFound],
          success_reason := none } ∧
        CommitError.SignOffMismatch ∉ L := by
      rcases hval : validate_emails email_is_valid c with errors | u
      · exact ⟨errors,
          by simp [check_commit_pre, hval, hempty, Except.isOk, Except.toBool],
          (validate_emails_error_mem email_is_valid c errors hval).1⟩
      · exact ⟨[],
          by simp [check_commit_pre, hval, hempty, Except.isOk, Except.toBool],
          by simp⟩
    obtain ⟨L, hpre, hL⟩ := hpre
    simp only [check_commit, hpre]
    rw [if_neg (by simp [hskip])]
    rcases hrem : remediations_match remediations c with _ | _
    · rw [if_neg (by simp [hrem])]
      constructor
      · simp only [List.mem_append, List.mem_singleton]
        rintro (h | h)
        · exact hL h
        · exact CommitError.noConfusion h
      · intro _
        simp
    · rw [if_pos (by simp [hrem])]
      constructor
      · simp
      · intro h
        exact Bool.noConfusion h

theorem claim_c4_witness :
    parseSignOffLine ("SIGNED-OFF-BY: ".data ++ (" John".data ++ (" <".data ++
        ("j@e.com".data ++ (">".data ++ " ".data))))) =
      some { name := " John".data, email := "j@e.com".data } :=
  claim_c4_amended.1 "SIGNED-OFF-BY: ".data " John".data "j@e.com".data " ".data
    (by decide) (by decide) (by decide) (by decide)

/-- Claim C4 as stated is false on the code: the captured name of a sign-off
line with extra whitespace around the name keeps that whitespace verbatim (the
repository test suite asserts the same behaviour), so the extraction does not
trim leading and trailing whitespace around the name as the claim says. -/
theorem claim_c4_counterexample :
    get_signoffs
      { author := some user1, committer := some user1, html_url := [], is_merge := false,
        message := "Test commit message\n\nSigned-off-by:  user1  <user1@email.test>\n".data,
        sha := "sha1".data, verified := none } =
      [{ name := " user1 ".data, email := "user1@email.test".data }] ∧
    (" user1 ".data : Str) ≠ "user1".data := by
  constructor
  · decide
  · decide

end DCO2
